import Mathlib

/-!
Verification development for the SEO analysis orchestrator repository.

Shallow embedding of:
* `services/cacheService.ts` — FNV-style URL-set hashing, the localStorage-backed
  analysis cache (`getAnalysis`, `setAnalysis`, `clearAnalysis`, `clearOldestEntries`,
  `enforceCacheLimit`, `cleanupExpiredEntries`, metadata handling);
* the pipeline orchestrator `handleSubmit` in the bundled `App.tsx`.

Modelling conventions:
* JS strings are lists of UTF-16 code units (`List Nat`); URL values, cache keys,
  log/error messages are all such lists.
* JS 32-bit coercions (`^=` via ToInt32, `>>> 0` via ToUint32) all factor through
  residues mod 2^32, so the hash state is a `Nat` reduced with `% 4294967296`;
  signed/unsigned representation differences are invisible mod 2^32.
* `localStorage` is a finite association list from keys to stored values; keys are
  unique in localStorage, and the operations below preserve that.  A stored blob
  either parses as a `CachedAnalysis` (`Val.entry`) or fails to parse
  (`Val.corrupt`).  The metadata blob lives under its own reserved key
  (`<ns>:metadata`, which no entry key can collide with since entry keys contain a
  colon between domain and hash), so it is modelled as a separate field.
* `Date.now()` is an ambient clock value passed explicitly; timestamps are `Int`.
* Host URL parsing (`new URL(url).hostname` with raw-string fallback) is an opaque
  deterministic function `ed` passed as a parameter.
* The external collaborators of the orchestrator (crawler, ranker, the three
  analysis providers, action-plan and summary generators) are oracle parameters;
  fallible ones return `Except` with their error message.
-/

/-! ### Base-36 encoding (`Number.prototype.toString(36)`) -/

/-- One base-36 digit as its character code (`0`-`9`, then `a`-`z`). -/
def digit36 (d : Nat) : Nat := if d < 10 then 48 + d else 87 + d

/-- Fuel-indexed base-36 digit accumulation (fuel keeps it structural). -/
def toBase36Go : Nat → Nat → List Nat → List Nat
  | 0, _, acc => acc
  | fuel + 1, n, acc =>
    if n < 36 then digit36 n :: acc
    else toBase36Go fuel (n / 36) (digit36 (n % 36) :: acc)

/-- `n.toString(36)` as a list of character codes. -/
def toBase36 (n : Nat) : List Nat := toBase36Go (n + 1) n []

/-! ### `simpleHash` (cacheService.ts lines 42-49)

The JS body is
```
let hash = 2166136261;
for (let i = 0; i < str.length; i++) {
  hash ^= str.charCodeAt(i);
  hash += (hash << 1) + (hash << 4) + (hash << 7) + (hash << 8) + (hash << 24);
}
return (hash >>> 0).toString(36);
```
Every shift result is a 32-bit residue and the accumulated value is only ever
observed through ToInt32/ToUint32, i.e. mod 2^32. -/

/-- One loop iteration of `simpleHash`: xor in the code unit, then the
shift-and-add mix, all mod 2^32. -/
def simpleHashStep (h c : Nat) : Nat :=
  ((h ^^^ c) % 4294967296 + ((h ^^^ c) % 4294967296) * 2 % 4294967296 +
      ((h ^^^ c) % 4294967296) * 16 % 4294967296 +
      ((h ^^^ c) % 4294967296) * 128 % 4294967296 +
      ((h ^^^ c) % 4294967296) * 256 % 4294967296 +
      ((h ^^^ c) % 4294967296) * 16777216 % 4294967296) % 4294967296

/-- `simpleHash` over a string given as code units. -/
def simpleHash (s : List Nat) : List Nat :=
  toBase36 (s.foldl simpleHashStep 2166136261)

/-- Spec-side FNV-1a step: xor the byte in, multiply by the FNV prime
16777619, truncate to unsigned 32 bits.  (Modelled from the spec's words for
the refinement claim C8; to be compared with `simpleHashStep` above.) -/
def fnv1aStep (h c : Nat) : Nat := ((h ^^^ c) * 16777619) % 4294967296

/-- Spec-side 32-bit FNV-1a of a byte/code-unit sequence, offset basis
2166136261. -/
def fnv1a (s : List Nat) : Nat := s.foldl fnv1aStep 2166136261

/-! ### `generateUrlsHash` (cacheService.ts lines 55-59) -/

/-- `[...urls].sort()` — JS default sort compares strings by UTF-16 code
units, which is the lexicographic `≤` on `List Nat`. -/
def sortUrls (urls : List (List Nat)) : List (List Nat) :=
  List.insertionSort (· ≤ ·) urls

/-- `sortedUrls.join('|')` (vertical bar is code 124). -/
def joinBar (urls : List (List Nat)) : List Nat := List.intercalate [124] urls

/-- `generateUrlsHash`: sort, join with `|`, hash. -/
def generateUrlsHash (urls : List (List Nat)) : List Nat :=
  simpleHash (joinBar (sortUrls urls))

theorem simpleHashStep_eq_fnv1aStep (h c : Nat) :
    simpleHashStep h c = fnv1aStep h c := by
  unfold simpleHashStep fnv1aStep
  generalize h ^^^ c = a
  omega

theorem foldl_simpleHashStep_eq_fnv1a (s : List Nat) :
    ∀ h : Nat, s.foldl simpleHashStep h = s.foldl fnv1aStep h := by
  induction s with
  | nil => intro h; rfl
  | cons c s ih =>
    intro h
    simp only [List.foldl_cons, simpleHashStep_eq_fnv1aStep]
    exact ih _

/-- C8: `generateUrlsHash` is exactly base-36 of 32-bit FNV-1a (offset basis
2166136261, multiplication by the FNV prime 16777619 expressed in the source
as shift-and-adds, unsigned 32-bit truncation) over the code units of the
lexicographically sorted, `|`-joined URL list. -/
theorem generateUrlsHash_is_fnv1a_base36 (urls : List (List Nat)) :
    generateUrlsHash urls = toBase36 (fnv1a (joinBar (sortUrls urls))) := by
  unfold generateUrlsHash simpleHash fnv1a
  exact congrArg toBase36 (foldl_simpleHashStep_eq_fnv1a _ _)

/-- C1 (counterexample): inserting a duplicate of an element already present
changes the fingerprint — the source sorts but never de-duplicates, so
`["a"]` and `["a","a"]` hash the strings `a` and `a|a` respectively. -/
theorem generateUrlsHash_duplicate_insertion_changes :
    generateUrlsHash [[97]] ≠ generateUrlsHash [[97], [97]] := by decide

/-- C1 (amended): the fingerprint is invariant under permutation of the URL
list (and, concretely, differs between the sets `{a}` and `{a, b}`); it is
not invariant under duplicate insertion. -/
theorem generateUrlsHash_perm_invariant :
    (∀ l₁ l₂ : List (List Nat), l₁.Perm l₂ →
        generateUrlsHash l₁ = generateUrlsHash l₂) ∧
      generateUrlsHash [[97]] ≠ generateUrlsHash [[97], [98]] := by
  constructor
  · intro l₁ l₂ hp
    unfold generateUrlsHash sortUrls
    have h₁ := List.sorted_insertionSort (α := List Nat) (· ≤ ·) l₁
    have h₂ := List.sorted_insertionSort (α := List Nat) (· ≤ ·) l₂
    have hpp : (List.insertionSort (· ≤ ·) l₁).Perm (List.insertionSort (· ≤ ·) l₂) :=
      ((List.perm_insertionSort _ l₁).trans hp).trans (List.perm_insertionSort _ l₂).symm
    rw [List.eq_of_perm_of_sorted hpp h₁ h₂]
  · decide

/-- C1 (witness for the amended theorem): the two-element set hashes equally
in both input orders. -/
theorem generateUrlsHash_perm_invariant_witness :
    generateUrlsHash [[97], [98]] = generateUrlsHash [[98], [97]] :=
  generateUrlsHash_perm_invariant.1 [[97], [98]] [[98], [97]]
    (List.Perm.swap [98] [97] [])

/-! ### The persistent store model (localStorage restricted to cache keys) -/

/-- A parsed cache entry (interface `CachedAnalysis`, cacheService.ts lines
19-26); the two analysis payloads are opaque (`α`, `β`). -/
structure CachedAnalysis (α β : Type) where
  domain : List Nat
  urlsHash : List Nat
  timestamp : Int
  ttl : Int
  sitewide : α
  seo : β
deriving DecidableEq

/-- A stored blob under an entry key: either it parses as a `CachedAnalysis`
or `JSON.parse` fails on it. -/
inductive Val (α β : Type) where
  | entry (c : CachedAnalysis α β)
  | corrupt
deriving DecidableEq

/-- Interface `CacheMetadata` (cacheService.ts lines 28-32); `version` is a
constant string not relevant to any behavior and omitted. -/
structure CacheMetadata where
  lastCleanup : Int
  entries : Int
deriving DecidableEq

/-- The localStorage slice owned by the cache: the entry-keyed cells in
enumeration order, plus the reserved metadata cell (a corrupt metadata blob
behaves exactly like an absent one, so `Option` suffices). -/
structure Store (α β : Type) where
  items : List (List Nat × Val α β)
  meta : Option CacheMetadata
deriving DecidableEq

/-- `localStorage.getItem` on the entry cells. -/
def getItem {α β : Type} (k : List Nat) : List (List Nat × Val α β) → Option (Val α β)
  | [] => none
  | p :: rest => if p.1 = k then some p.2 else getItem k rest

/-- Does an entry cell with this key exist? -/
def hasKey {α β : Type} (k : List Nat) : List (List Nat × Val α β) → Bool
  | [] => false
  | p :: rest => if p.1 = k then true else hasKey k rest

/-- Overwrite the cell with key `k` (keys are unique in localStorage). -/
def replaceKey {α β : Type} (k : List Nat) (v : Val α β) :
    List (List Nat × Val α β) → List (List Nat × Val α β)
  | [] => []
  | p :: rest => if p.1 = k then (k, v) :: replaceKey k v rest else p :: replaceKey k v rest

/-- `localStorage.setItem`: overwrite in place, or append a new cell. -/
def setItem {α β : Type} (k : List Nat) (v : Val α β)
    (l : List (List Nat × Val α β)) : List (List Nat × Val α β) :=
  if hasKey k l then replaceKey k v l else l ++ [(k, v)]

/-- `localStorage.removeItem` (keys are unique, so filtering is removal). -/
def eraseKey {α β : Type} (k : List Nat) :
    List (List Nat × Val α β) → List (List Nat × Val α β)
  | [] => []
  | p :: rest => if p.1 = k then eraseKey k rest else p :: eraseKey k rest

/-- How many cells carry key `k`. -/
def countKey {α β : Type} (k : List Nat) : List (List Nat × Val α β) → Nat
  | [] => 0
  | p :: rest => (if p.1 = k then 1 else 0) + countKey k rest

/-! ### Cache key construction and metadata (cacheService.ts lines 76-110) -/

/-- The namespace constant `seo-analyzer-cache-v1` as code units. -/
def cacheNs : List Nat := ("seo-analyzer-cache-v1").toList.map Char.toNat

/-- `generateCacheKey`: `` `${CACHE_PREFIX}:${domain}:${urlsHash}` `` (58 is
the colon). -/
def generateCacheKey (domain urlsHash : List Nat) : List Nat :=
  cacheNs ++ [58] ++ domain ++ [58] ++ urlsHash

/-- `getMetadata`: parse the metadata cell, defaulting to
`{ lastCleanup: Date.now(), entries: 0 }` when absent/corrupt. -/
def getMetadata {α β : Type} (st : Store α β) (now : Int) : CacheMetadata :=
  match st.meta with
  | some m => m
  | none => { lastCleanup := now, entries := 0 }

/-! ### Timestamp-ordered eviction helpers (cacheService.ts lines 174-218 and
374-405): collect the parseable entries as (key, timestamp) pairs, sort them
oldest-first, remove a prefix. -/

/-- The `(key, timestamp)` pairs of the cells that parse (corrupt cells are
skipped by the `catch`). -/
def entryPairs {α β : Type} (l : List (List Nat × Val α β)) : List (List Nat × Int) :=
  l.filterMap fun p =>
    match p.2 with
    | Val.entry c => some (p.1, c.timestamp)
    | Val.corrupt => none

/-- The comparator `(a, b) => a.timestamp - b.timestamp`. -/
def tsLe (a b : List Nat × Int) : Prop := a.2 ≤ b.2

instance : DecidableRel tsLe := fun a b => inferInstanceAs (Decidable (a.2 ≤ b.2))

instance : IsTotal (List Nat × Int) tsLe := ⟨fun a b => le_total a.2 b.2⟩

instance : IsTrans (List Nat × Int) tsLe := ⟨fun _ _ _ h h' => le_trans h h'⟩

/-- Delete the cells named by `ks`, left to right. -/
def eraseKeys {α β : Type} (ks : List (List Nat))
    (l : List (List Nat × Val α β)) : List (List Nat × Val α β) :=
  ks.foldl (fun acc k => eraseKey k acc) l

/-- `clearOldestEntries(count)` (cacheService.ts lines 374-405): sort the
parseable entries oldest-first and remove the first `min(count, n)` of them.
The metadata counter is not touched. -/
def clearOldestEntries {α β : Type} (count : Nat) (st : Store α β) : Store α β :=
  let es := entryPairs st.items
  let sorted := List.insertionSort tsLe es
  let rem := sorted.take (min count es.length)
  { st with items := eraseKeys (rem.map Prod.fst) st.items }

/-- `enforceCacheLimit` (cacheService.ts lines 174-218): gate on the metadata
counter, then remove the `n - MAX_CACHE_SIZE` oldest parseable entries and
reset the counter to `MAX_CACHE_SIZE` (50). -/
def enforceCacheLimit {α β : Type} (st : Store α β) (now : Int) : Store α β :=
  let m := getMetadata st now
  if m.entries ≤ 50 then st
  else
    let es := entryPairs st.items
    let sorted := List.insertionSort tsLe es
    let toRemove := es.length - 50
    if 0 < toRemove then
      { items := eraseKeys ((sorted.take toRemove).map Prod.fst) st.items,
        meta := some { m with entries := 50 } }
    else st

/-- `cleanupExpiredEntries` (cacheService.ts lines 115-169): at most once per
rolling hour, delete every expired or corrupt cell and decrement the counter
by the number removed (floored at 0 via `Math.max`). -/
def cleanupExpiredEntries {α β : Type} (st : Store α β) (now : Int) : Store α β :=
  let m := getMetadata st now
  if now - m.lastCleanup < 3600000 then st
  else
    let keysToRemove := st.items.filterMap fun p =>
      match p.2 with
      | Val.entry c => if now - c.timestamp > c.ttl then some p.1 else none
      | Val.corrupt => some p.1
    { items := eraseKeys keysToRemove st.items,
      meta := some { m with lastCleanup := now,
                            entries := max 0 (m.entries - keysToRemove.length) } }

/-! ### The public cache operations (class `CacheService`) -/

/-- Outcome of one underlying `localStorage.setItem` attempt: success, a
`QuotaExceededError`, or any other failure. -/
inductive WriteRes where
  | ok
  | quota
  | failed
deriving DecidableEq

/-- `CacheService.getAnalysis` (cacheService.ts lines 228-266).  `ed` is the
host's `extractDomain`; `now` is `Date.now()`.  Returns the payload pair (or
`none`) and the store after the call's own mutations.  The
`setTimeout(cleanupExpiredEntries, 0)` it schedules is a separate deferred
task, not part of this call's effect. -/
def getAnalysis {α β : Type} (ed : List Nat → List Nat) (st : Store α β)
    (domainUrl : List Nat) (urls : List (List Nat)) (now : Int) :
    Option (α × β) × Store α β :=
  let key := generateCacheKey (ed domainUrl) (generateUrlsHash urls)
  match getItem key st.items with
  | none => (none, st)
  | some Val.corrupt => (none, st)
  | some (Val.entry c) =>
    if now - c.timestamp > c.ttl then
      (none, { st with items := eraseKey key st.items })
    else
      (some (c.sitewide, c.seo), st)

/-- `CacheService.setAnalysis` (cacheService.ts lines 271-320).  `env n` is
the outcome of the n-th underlying write attempt of this call (JSON
serialization failures are folded into a `failed` first attempt).  On
success the metadata counter is incremented; on `QuotaExceededError` the 5
oldest entries are cleared and the write is retried exactly once, any retry
failure being swallowed (no metadata update on the retry path, as in the
source).  The `setTimeout(enforceCacheLimit, 0)` scheduled on success is a
separate deferred task. -/
def setAnalysisE {α β : Type} (ed : List Nat → List Nat) (env : Nat → WriteRes)
    (st : Store α β) (domainUrl : List Nat) (urls : List (List Nat))
    (sw : α) (se : β) (ttl : Int) (now : Int) : Store α β :=
  let domain := ed domainUrl
  let h := generateUrlsHash urls
  let key := generateCacheKey domain h
  let c : CachedAnalysis α β :=
    { domain := domain, urlsHash := h, timestamp := now, ttl := ttl,
      sitewide := sw, seo := se }
  match env 0 with
  | WriteRes.ok =>
    let m := getMetadata st now
    { items := setItem key (Val.entry c) st.items,
      meta := some { m with entries := m.entries + 1 } }
  | WriteRes.quota =>
    let st1 := clearOldestEntries 5 st
    match env 1 with
    | WriteRes.ok => { st1 with items := setItem key (Val.entry c) st1.items }
    | _ => st1
  | WriteRes.failed => st

/-- `setAnalysis` on a medium that accepts the write (the non-faulting run of
lines 291-302). -/
def setAnalysis {α β : Type} (ed : List Nat → List Nat) (st : Store α β)
    (domainUrl : List Nat) (urls : List (List Nat)) (sw : α) (se : β)
    (ttl : Int) (now : Int) : Store α β :=
  setAnalysisE ed (fun _ => WriteRes.ok) st domainUrl urls sw se ttl now

/-- `CacheService.clearAnalysis` (cacheService.ts lines 325-338): remove the
cell (a no-op when absent) and decrement the counter, floored at 0. -/
def clearAnalysis {α β : Type} (ed : List Nat → List Nat) (st : Store α β)
    (domainUrl : List Nat) (urls : List (List Nat)) (now : Int) : Store α β :=
  let key := generateCacheKey (ed domainUrl) (generateUrlsHash urls)
  let m := getMetadata st now
  { items := eraseKey key st.items,
    meta := some { m with entries := max 0 (m.entries - 1) } }

/-! ### Elementary store lemmas -/

theorem hasKey_of_mem {α β : Type} (k : List Nat) :
    ∀ l : List (List Nat × Val α β), k ∈ l.map Prod.fst → hasKey k l = true := by
  intro l
  induction l with
  | nil => intro h; simp at h
  | cons p rest ih =>
    intro h
    by_cases hp : p.1 = k
    · simp [hasKey, hp]
    · simp only [List.map_cons, List.mem_cons] at h
      rcases h with h | h
      · exact absurd h.symm hp
      · simp [hasKey, hp, ih h]

theorem not_mem_of_hasKey_false {α β : Type} (k : List Nat)
    (l : List (List Nat × Val α β)) (h : ¬hasKey k l = true) :
    k ∉ l.map Prod.fst :=
  fun hm => h (hasKey_of_mem k l hm)

theorem getItem_replaceKey_self {α β : Type} (k : List Nat) (v : Val α β) :
    ∀ l : List (List Nat × Val α β), hasKey k l = true →
      getItem k (replaceKey k v l) = some v := by
  intro l
  induction l with
  | nil => intro h; simp [hasKey] at h
  | cons p rest ih =>
    intro h
    by_cases hp : p.1 = k
    · simp [replaceKey, getItem, hp]
    · simp only [replaceKey, if_neg hp, getItem]
      apply ih
      simpa [hasKey, hp] using h

theorem getItem_none_of_hasKey_false {α β : Type} (k : List Nat) :
    ∀ l : List (List Nat × Val α β), ¬hasKey k l = true → getItem k l = none := by
  intro l
  induction l with
  | nil => intro _; rfl
  | cons p rest ih =>
    intro h
    simp only [hasKey] at h
    by_cases hp : p.1 = k
    · rw [if_pos hp] at h; exact absurd rfl h
    · rw [if_neg hp] at h
      simp [getItem, hp, ih h]

theorem getItem_append_self {α β : Type} (k : List Nat) (v : Val α β) :
    ∀ l : List (List Nat × Val α β), ¬hasKey k l = true →
      getItem k (l ++ [(k, v)]) = some v := by
  intro l
  induction l with
  | nil => intro _; simp [getItem]
  | cons p rest ih =>
    intro h
    simp only [hasKey] at h
    by_cases hp : p.1 = k
    · rw [if_pos hp] at h; exact absurd rfl h
    · rw [if_neg hp] at h
      simp [getItem, hp, ih h]

theorem getItem_setItem_self {α β : Type} (k : List Nat) (v : Val α β)
    (l : List (List Nat × Val α β)) : getItem k (setItem k v l) = some v := by
  unfold setItem
  by_cases h : hasKey k l
  · rw [if_pos h]; exact getItem_replaceKey_self k v l h
  · rw [if_neg h]; exact getItem_append_self k v l h

theorem eraseKey_of_getItem_none {α β : Type} (k : List Nat) :
    ∀ l : List (List Nat × Val α β), getItem k l = none → eraseKey k l = l := by
  intro l
  induction l with
  | nil => intro _; rfl
  | cons p rest ih =>
    intro h
    simp only [getItem] at h
    by_cases hp : p.1 = k
    · rw [if_pos hp] at h; exact absurd h (by simp)
    · rw [if_neg hp] at h
      simp [eraseKey, hp, ih h]

theorem countKey_zero_of_not_mem {α β : Type} (k : List Nat) :
    ∀ l : List (List Nat × Val α β), k ∉ l.map Prod.fst → countKey k l = 0 := by
  intro l
  induction l with
  | nil => intro _; rfl
  | cons p rest ih =>
    intro h
    simp only [List.map_cons, List.mem_cons] at h
    push_neg at h
    have hp : ¬p.1 = k := fun hh => h.1 hh.symm
    simp [countKey, hp, ih h.2]

theorem countKey_replaceKey {α β : Type} (k : List Nat) (v : Val α β) :
    ∀ l : List (List Nat × Val α β), countKey k (replaceKey k v l) = countKey k l := by
  intro l
  induction l with
  | nil => rfl
  | cons p rest ih =>
    by_cases hp : p.1 = k
    · simp [replaceKey, countKey, hp, ih]
    · simp [replaceKey, countKey, hp, ih]

theorem countKey_append_single {α β : Type} (k : List Nat) (v : Val α β) :
    ∀ l : List (List Nat × Val α β), countKey k (l ++ [(k, v)]) = countKey k l + 1 := by
  intro l
  induction l with
  | nil => simp [countKey]
  | cons p rest ih =>
    simp only [List.cons_append, countKey, List.append_eq]
    rw [ih]
    omega

theorem countKey_pos_of_hasKey {α β : Type} (k : List Nat) :
    ∀ l : List (List Nat × Val α β), hasKey k l = true → 1 ≤ countKey k l := by
  intro l
  induction l with
  | nil => intro h; simp [hasKey] at h
  | cons p rest ih =>
    intro h
    by_cases hp : p.1 = k
    · simp [countKey, hp]
    · simp only [hasKey, if_neg hp] at h
      have := ih h
      simp only [countKey, if_neg hp]
      omega

theorem countKey_le_one_of_nodup {α β : Type} (k : List Nat) :
    ∀ l : List (List Nat × Val α β), (l.map Prod.fst).Nodup → countKey k l ≤ 1 := by
  intro l
  induction l with
  | nil => intro _; simp [countKey]
  | cons p rest ih =>
    intro h
    simp only [List.map_cons, List.nodup_cons] at h
    by_cases hp : p.1 = k
    · have : countKey k rest = 0 := countKey_zero_of_not_mem k rest (hp ▸ h.1)
      simp [countKey, hp, this]
    · have := ih h.2
      simp only [countKey, if_neg hp]
      omega

theorem countKey_setItem_self {α β : Type} (k : List Nat) (v : Val α β)
    (l : List (List Nat × Val α β)) (h : (l.map Prod.fst).Nodup) :
    countKey k (setItem k v l) = 1 := by
  unfold setItem
  by_cases hk : hasKey k l
  · rw [if_pos hk, countKey_replaceKey]
    exact le_antisymm (countKey_le_one_of_nodup k l h) (countKey_pos_of_hasKey k l hk)
  · rw [if_neg hk, countKey_append_single,
      countKey_zero_of_not_mem k l (not_mem_of_hasKey_false k l hk)]

theorem map_fst_replaceKey {α β : Type} (k : List Nat) (v : Val α β) :
    ∀ l : List (List Nat × Val α β),
      (replaceKey k v l).map Prod.fst = l.map Prod.fst := by
  intro l
  induction l with
  | nil => rfl
  | cons p rest ih =>
    by_cases hp : p.1 = k
    · simp [replaceKey, hp, ih]
    · simp [replaceKey, hp, ih]

theorem setItem_nodup {α β : Type} (k : List Nat) (v : Val α β)
    (l : List (List Nat × Val α β)) (h : (l.map Prod.fst).Nodup) :
    ((setItem k v l).map Prod.fst).Nodup := by
  unfold setItem
  by_cases hk : hasKey k l
  · rw [if_pos hk, map_fst_replaceKey]; exact h
  · rw [if_neg hk]
    simp [List.nodup_append, h, not_mem_of_hasKey_false k l hk]

/-- C2: storing an analysis and immediately looking it up with the same
domain URL and URL list returns exactly the stored payload pair, provided
the TTL has not elapsed between the two calls. -/
theorem setAnalysis_then_getAnalysis {α β : Type} (ed : List Nat → List Nat)
    (st : Store α β) (domainUrl : List Nat) (urls : List (List Nat))
    (sw : α) (se : β) (ttl t₁ t₂ : Int) (h : t₂ - t₁ ≤ ttl) :
    (getAnalysis ed (setAnalysis ed st domainUrl urls sw se ttl t₁)
        domainUrl urls t₂).1 = some (sw, se) := by
  unfold getAnalysis setAnalysis setAnalysisE
  simp only [getItem_setItem_self]
  have hne : ¬t₂ - t₁ > ttl := by omega
  simp [hne]

/-- C2 (witness): a concrete store-then-lookup round trip. -/
theorem setAnalysis_then_getAnalysis_witness :
    (getAnalysis (α := Nat) (β := Nat) id
        (setAnalysis id ⟨[], none⟩ [] [] 1 2 100 0) [] [] 7).1 = some (1, 2) :=
  setAnalysis_then_getAnalysis id ⟨[], none⟩ [] [] 1 2 100 0 7 (by decide)

/-- C3 (amended): `getAnalysis` returns absent exactly when there is no
entry under the derived key, the entry fails to parse, or
`now - createdAt > ttl`; in the expiry case the lookup itself deletes the
entry, but in the corruption case it leaves the store untouched (removal of
corrupt blobs is left to the hourly sweep). -/
theorem getAnalysis_absent_characterization {α β : Type}
    (ed : List Nat → List Nat) (st : Store α β) (domainUrl : List Nat)
    (urls : List (List Nat)) (now : Int) :
    ((getAnalysis ed st domainUrl urls now).1 = none ↔
        getItem (generateCacheKey (ed domainUrl) (generateUrlsHash urls))
            st.items = none ∨
          getItem (generateCacheKey (ed domainUrl) (generateUrlsHash urls))
              st.items = some Val.corrupt ∨
          ∃ c, getItem (generateCacheKey (ed domainUrl) (generateUrlsHash urls))
                st.items = some (Val.entry c) ∧ now - c.timestamp > c.ttl) ∧
      (∀ c, getItem (generateCacheKey (ed domainUrl) (generateUrlsHash urls))
            st.items = some (Val.entry c) → now - c.timestamp > c.ttl →
          (getAnalysis ed st domainUrl urls now).2.items =
            eraseKey (generateCacheKey (ed domainUrl) (generateUrlsHash urls))
              st.items) ∧
      (getItem (generateCacheKey (ed domainUrl) (generateUrlsHash urls))
          st.items = some Val.corrupt →
        (getAnalysis ed st domainUrl urls now).2 = st) := by
  unfold getAnalysis
  rcases hg : getItem (generateCacheKey (ed domainUrl) (generateUrlsHash urls))
      st.items with _ | v
  · simp [hg]
  · cases v with
    | corrupt => simp [hg]
    | entry c =>
      by_cases hexp : now - c.timestamp > c.ttl
      · simp [hg, hexp]
      · simp [hg, hexp]

/-- C3 (witness): on a store holding one expired entry the lookup returns
absent and erases the key. -/
theorem getAnalysis_absent_characterization_witness :
    (getAnalysis (α := Nat) (β := Nat) id
        ⟨[(generateCacheKey [] (generateUrlsHash []),
            Val.entry ⟨[], [], 0, 0, 5, 6⟩)], none⟩ [] [] 1).1 = none ∧
      (getAnalysis (α := Nat) (β := Nat) id
          ⟨[(generateCacheKey [] (generateUrlsHash []),
              Val.entry ⟨[], [], 0, 0, 5, 6⟩)], none⟩ [] [] 1).2.items =
        eraseKey (generateCacheKey (id []) (generateUrlsHash []))
          [(generateCacheKey [] (generateUrlsHash []),
            Val.entry ⟨[], [], 0, 0, 5, 6⟩)] :=
  ⟨(getAnalysis_absent_characterization id
        ⟨[(generateCacheKey [] (generateUrlsHash []),
            Val.entry ⟨[], [], 0, 0, 5, 6⟩)], none⟩ [] [] 1).1.mpr
      (Or.inr (Or.inr ⟨⟨[], [], 0, 0, 5, 6⟩, by decide, by decide⟩)),
    (getAnalysis_absent_characterization id
        ⟨[(generateCacheKey [] (generateUrlsHash []),
            Val.entry ⟨[], [], 0, 0, 5, 6⟩)], none⟩ [] [] 1).2.1
      ⟨[], [], 0, 0, 5, 6⟩ (by decide) (by decide)⟩

/-- C3 (counterexample): a corrupt entry is NOT deleted by the lookup
itself — `getAnalysis` returns absent but the offending cell is still in the
store afterwards, contradicting the claim that corruption is self-healed at
lookup time. -/
theorem getAnalysis_corrupt_entry_not_deleted :
    (getAnalysis (α := Nat) (β := Nat) id
        ⟨[(generateCacheKey [] (generateUrlsHash []), Val.corrupt)], none⟩
        [] [] 0).1 = none ∧
      getItem (generateCacheKey [] (generateUrlsHash []))
          (getAnalysis (α := Nat) (β := Nat) id
              ⟨[(generateCacheKey [] (generateUrlsHash []), Val.corrupt)], none⟩
              [] [] 0).2.items = some Val.corrupt := by
  decide

/-- C9: the metadata counter is not an invariant physical count: two
`setAnalysis` calls with the same domain and URL list leave exactly one
physical cell under the derived key while the counter grows by two, and
`clearAnalysis` on a store without the key still decrements the counter
(floored at 0) while leaving the cells unchanged. -/
theorem metadata_counter_drift {α β : Type} (ed : List Nat → List Nat)
    (st st' : Store α β) (domainUrl : List Nat) (urls : List (List Nat))
    (sw sw' : α) (se se' : β) (ttl ttl' t₁ t₂ t₃ : Int)
    (hnd : (st.items.map Prod.fst).Nodup)
    (habs : getItem (generateCacheKey (ed domainUrl) (generateUrlsHash urls))
        st'.items = none) :
    countKey (generateCacheKey (ed domainUrl) (generateUrlsHash urls))
        (setAnalysis ed (setAnalysis ed st domainUrl urls sw se ttl t₁)
          domainUrl urls sw' se' ttl' t₂).items = 1 ∧
      (getMetadata (setAnalysis ed (setAnalysis ed st domainUrl urls sw se ttl t₁)
            domainUrl urls sw' se' ttl' t₂) t₂).entries =
        (getMetadata st t₁).entries + 2 ∧
      (clearAnalysis ed st' domainUrl urls t₃).items = st'.items ∧
      (getMetadata (clearAnalysis ed st' domainUrl urls t₃) t₃).entries =
        max 0 ((getMetadata st' t₃).entries - 1) := by
  refine ⟨?_, ?_, ?_, ?_⟩
  · unfold setAnalysis setAnalysisE
    exact countKey_setItem_self _ _ _ (setItem_nodup _ _ _ hnd)
  · unfold setAnalysis setAnalysisE
    show ((getMetadata st t₁).entries + 1) + 1 = (getMetadata st t₁).entries + 2
    omega
  · unfold clearAnalysis
    exact eraseKey_of_getItem_none _ _ habs
  · rfl

/-- C9 (witness): concrete double store and empty-store clear. -/
theorem metadata_counter_drift_witness :
    countKey (generateCacheKey (id []) (generateUrlsHash []))
        (setAnalysis (α := Nat) (β := Nat) id
          (setAnalysis id ⟨[], none⟩ [] [] 1 2 100 0) [] [] 3 4 100 5).items = 1 ∧
      (getMetadata (setAnalysis (α := Nat) (β := Nat) id
            (setAnalysis id ⟨[], none⟩ [] [] 1 2 100 0) [] [] 3 4 100 5) 5).entries =
        (getMetadata (α := Nat) (β := Nat) ⟨[], none⟩ 0).entries + 2 ∧
      (clearAnalysis (α := Nat) (β := Nat) id ⟨[], none⟩ [] [] 9).items = [] ∧
      (getMetadata (clearAnalysis (α := Nat) (β := Nat) id ⟨[], none⟩ [] [] 9)
          9).entries =
        max 0 ((getMetadata (α := Nat) (β := Nat) ⟨[], none⟩ 9).entries - 1) :=
  metadata_counter_drift id ⟨[], none⟩ ⟨[], none⟩ [] [] 1 3 2 4 100 100 0 5 9
    (by decide) (by decide)

/-! ### Eviction lemmas: removing a batch of keys -/

theorem eraseKey_eq_filter {α β : Type} (k : List Nat) :
    ∀ l : List (List Nat × Val α β),
      eraseKey k l = l.filter fun p => decide (¬p.1 = k) := by
  intro l
  induction l with
  | nil => rfl
  | cons p rest ih =>
    by_cases hp : p.1 = k
    · simp [eraseKey, List.filter, hp, ih]
    · simp [eraseKey, List.filter, hp, ih]

theorem eraseKeys_eq_filter {α β : Type} :
    ∀ (ks : List (List Nat)) (l : List (List Nat × Val α β)),
      eraseKeys ks l = l.filter fun p => decide (p.1 ∉ ks) := by
  intro ks
  induction ks with
  | nil => intro l; simp [eraseKeys]
  | cons k ks ih =>
    intro l
    show eraseKeys ks (eraseKey k l) = _
    rw [ih, eraseKey_eq_filter, List.filter_filter]
    apply List.filter_congr
    intro p _
    simp only [List.mem_cons, not_or, Bool.decide_and, Bool.and_comm]

theorem mem_eraseKeys {α β : Type} (ks : List (List Nat))
    (l : List (List Nat × Val α β)) (p : List Nat × Val α β) :
    p ∈ eraseKeys ks l ↔ p ∈ l ∧ p.1 ∉ ks := by
  rw [eraseKeys_eq_filter, List.mem_filter]
  simp

theorem countKey_le_length {α β : Type} (k : List Nat) :
    ∀ l : List (List Nat × Val α β), countKey k l ≤ l.length := by
  intro l
  induction l with
  | nil => simp [countKey]
  | cons p rest ih =>
    simp only [countKey, List.length_cons]
    by_cases hp : p.1 = k
    · simp only [if_pos hp]; omega
    · simp only [if_neg hp]; omega

theorem length_eraseKey {α β : Type} (k : List Nat) :
    ∀ l : List (List Nat × Val α β),
      (eraseKey k l).length = l.length - countKey k l := by
  intro l
  induction l with
  | nil => rfl
  | cons p rest ih =>
    have hcle := countKey_le_length k rest
    by_cases hp : p.1 = k
    · simp only [eraseKey, if_pos hp, countKey, ih, List.length_cons]
      omega
    · simp only [eraseKey, if_neg hp, countKey, List.length_cons, ih]
      omega

theorem map_fst_eraseKey_sublist {α β : Type} (k : List Nat)
    (l : List (List Nat × Val α β)) :
    ((eraseKey k l).map Prod.fst).Sublist (l.map Prod.fst) := by
  rw [eraseKey_eq_filter]
  exact (List.filter_sublist l).map Prod.fst

theorem mem_keys_eraseKey {α β : Type} (k k' : List Nat)
    (l : List (List Nat × Val α β)) (hne : k' ≠ k)
    (hm : k' ∈ l.map Prod.fst) : k' ∈ (eraseKey k l).map Prod.fst := by
  rw [eraseKey_eq_filter]
  obtain ⟨p, hp, hfst⟩ := List.mem_map.mp hm
  exact List.mem_map.mpr ⟨p, List.mem_filter.mpr ⟨hp, by simp [hfst, hne]⟩, hfst⟩

theorem length_eraseKeys_of_nodup {α β : Type} :
    ∀ (ks : List (List Nat)) (l : List (List Nat × Val α β)),
      (l.map Prod.fst).Nodup → ks.Nodup →
      (∀ k ∈ ks, k ∈ l.map Prod.fst) →
      (eraseKeys ks l).length = l.length - ks.length := by
  intro ks
  induction ks with
  | nil => intro l _ _ _; simp [eraseKeys]
  | cons k ks ih =>
    intro l hl hks hsub
    show (eraseKeys ks (eraseKey k l)).length = _
    have hkmem : k ∈ l.map Prod.fst := hsub k (List.mem_cons_self k ks)
    have hcount : countKey k l = 1 :=
      le_antisymm (countKey_le_one_of_nodup k l hl)
        (countKey_pos_of_hasKey k l (hasKey_of_mem k l hkmem))
    have hlen : (eraseKey k l).length = l.length - 1 := by
      rw [length_eraseKey, hcount]
    have hlpos : 1 ≤ l.length := by
      cases l with
      | nil => simp at hkmem
      | cons _ _ => simp
    rw [ih (eraseKey k l)
        (hl.sublist (map_fst_eraseKey_sublist k l))
        (List.Nodup.of_cons hks)
        (fun k' hk' =>
          mem_keys_eraseKey k k' l
            (fun he => (List.nodup_cons.mp hks).1 (he ▸ hk'))
            (hsub k' (List.mem_cons_of_mem k hk'))),
      hlen]
    simp only [List.length_cons]
    omega

/-! ### entryPairs and timestamp-sorted prefix removal -/

theorem mem_entryPairs_of_mem {α β : Type} (k : List Nat) (c : CachedAnalysis α β)
    (l : List (List Nat × Val α β)) (h : (k, Val.entry c) ∈ l) :
    (k, c.timestamp) ∈ entryPairs l := by
  unfold entryPairs
  exact List.mem_filterMap.mpr ⟨(k, Val.entry c), h, rfl⟩

theorem map_fst_entryPairs_sublist {α β : Type} :
    ∀ l : List (List Nat × Val α β),
      ((entryPairs l).map Prod.fst).Sublist (l.map Prod.fst) := by
  intro l
  induction l with
  | nil => simp [entryPairs]
  | cons p rest ih =>
    rcases p with ⟨k, v⟩
    cases v with
    | entry c =>
      simpa [entryPairs, List.filterMap_cons] using List.Sublist.cons₂ k ih
    | corrupt =>
      simpa [entryPairs, List.filterMap_cons] using List.Sublist.cons k ih

theorem entryPairs_length_of_all_entries {α β : Type} :
    ∀ l : List (List Nat × Val α β),
      (∀ p ∈ l, ∃ c, p.2 = Val.entry c) → (entryPairs l).length = l.length := by
  intro l
  induction l with
  | nil => intro _; rfl
  | cons p rest ih =>
    intro h
    obtain ⟨c, hc⟩ := h p (List.mem_cons_self p rest)
    rcases p with ⟨k, v⟩
    cases hc
    simp only [entryPairs, List.filterMap_cons, List.length_cons]
    have := ih fun q hq => h q (List.mem_cons_of_mem _ hq)
    unfold entryPairs at this
    rw [this]

theorem fst_inj_of_nodup {γ : Type} :
    ∀ (l : List (List Nat × γ)), (l.map Prod.fst).Nodup →
      ∀ k a b, (k, a) ∈ l → (k, b) ∈ l → a = b := by
  intro l
  induction l with
  | nil => intro _ k a b ha; simp at ha
  | cons p rest ih =>
    intro h k a b ha hb
    simp only [List.map_cons, List.nodup_cons] at h
    rcases List.mem_cons.mp ha with ha1 | ha1 <;>
      rcases List.mem_cons.mp hb with hb1 | hb1
    · have := ha1.trans hb1.symm
      exact congrArg Prod.snd this
    · exfalso
      apply h.1
      rw [← ha1]
      exact List.mem_map.mpr ⟨(k, b), hb1, rfl⟩
    · exfalso
      apply h.1
      rw [← hb1]
      exact List.mem_map.mpr ⟨(k, a), ha1, rfl⟩
    · exact ih h.2 k a b ha1 hb1

theorem sorted_take_drop_tsLe (n : Nat) (es : List (List Nat × Int)) :
    ∀ x ∈ (List.insertionSort tsLe es).take n,
      ∀ y ∈ (List.insertionSort tsLe es).drop n, tsLe x y := by
  have hs : List.Sorted tsLe (List.insertionSort tsLe es) :=
    List.sorted_insertionSort tsLe es
  have hsplit :
      ((List.insertionSort tsLe es).take n ++
        (List.insertionSort tsLe es).drop n).Pairwise tsLe := by
    rw [List.take_append_drop]
    exact hs
  exact (List.pairwise_append.mp hsplit).2.2

theorem sorted_keys_nodup {α β : Type} (l : List (List Nat × Val α β))
    (hnd : (l.map Prod.fst).Nodup) :
    ((List.insertionSort tsLe (entryPairs l)).map Prod.fst).Nodup := by
  have hes : ((entryPairs l).map Prod.fst).Nodup :=
    hnd.sublist (map_fst_entryPairs_sublist l)
  exact ((List.perm_insertionSort tsLe (entryPairs l)).map Prod.fst).nodup_iff.mpr hes

theorem evict_take_length {α β : Type} (n : Nat) (l : List (List Nat × Val α β))
    (hnd : (l.map Prod.fst).Nodup) :
    (eraseKeys (((List.insertionSort tsLe (entryPairs l)).take n).map Prod.fst)
        l).length = l.length - min n (entryPairs l).length := by
  have hperm := List.perm_insertionSort tsLe (entryPairs l)
  have hkeys : (((List.insertionSort tsLe (entryPairs l)).take n).map
      Prod.fst).Nodup := by
    rw [List.map_take]
    exact (sorted_keys_nodup l hnd).sublist
      (List.take_sublist n _)
  have hsub : ∀ k ∈ ((List.insertionSort tsLe (entryPairs l)).take n).map Prod.fst,
      k ∈ l.map Prod.fst := by
    intro k hk
    obtain ⟨pr, hpr, hfst⟩ := List.mem_map.mp hk
    have hpr' : pr ∈ entryPairs l :=
      hperm.mem_iff.mp (List.mem_of_mem_take hpr)
    exact (map_fst_entryPairs_sublist l).subset
      (List.mem_map.mpr ⟨pr, hpr', hfst⟩)
  rw [length_eraseKeys_of_nodup _ l hnd hkeys hsub, List.length_map,
    List.length_take, hperm.length_eq]

theorem evict_take_oldest {α β : Type} (n : Nat) (l : List (List Nat × Val α β))
    (hnd : (l.map Prod.fst).Nodup) (k : List Nat) (c : CachedAnalysis α β)
    (hmem : (k, Val.entry c) ∈ l)
    (hrem : (k, Val.entry c) ∉
      eraseKeys (((List.insertionSort tsLe (entryPairs l)).take n).map Prod.fst) l)
    (k' : List Nat) (c' : CachedAnalysis α β)
    (hkept : (k', Val.entry c') ∈
      eraseKeys (((List.insertionSort tsLe (entryPairs l)).take n).map Prod.fst) l) :
    c.timestamp ≤ c'.timestamp ∧
      ((k, c.timestamp) ∈ (List.insertionSort tsLe (entryPairs l)).take n ∧
        (k', c'.timestamp) ∈ (List.insertionSort tsLe (entryPairs l)).drop n) := by
  have hperm := List.perm_insertionSort tsLe (entryPairs l)
  have hesnd : ((entryPairs l).map Prod.fst).Nodup :=
    hnd.sublist (map_fst_entryPairs_sublist l)
  -- the evicted pair sits in the sorted prefix
  have hkks : k ∈ ((List.insertionSort tsLe (entryPairs l)).take n).map Prod.fst := by
    by_contra hks
    exact hrem ((mem_eraseKeys _ l _).mpr ⟨hmem, hks⟩)
  obtain ⟨pr, hprtake, hprfst⟩ := List.mem_map.mp hkks
  have hpres : pr ∈ entryPairs l := hperm.mem_iff.mp (List.mem_of_mem_take hprtake)
  have hces : (k, c.timestamp) ∈ entryPairs l := mem_entryPairs_of_mem k c l hmem
  have hpr2 : pr.2 = c.timestamp := by
    have : (k, pr.2) ∈ entryPairs l := by
      rw [← hprfst]; exact hpres
    exact fst_inj_of_nodup (entryPairs l) hesnd k pr.2 c.timestamp this hces
  have hprc : (k, c.timestamp) ∈ (List.insertionSort tsLe (entryPairs l)).take n := by
    have : pr = (k, c.timestamp) := by
      rcases pr with ⟨a, b⟩
      simp only at hprfst hpr2
      rw [hprfst, hpr2]
    rw [← this]; exact hprtake
  -- the kept pair sits in the sorted suffix
  obtain ⟨hkmem, hkks'⟩ := (mem_eraseKeys _ l _).mp hkept
  have hc'es : (k', c'.timestamp) ∈ entryPairs l := mem_entryPairs_of_mem k' c' l hkmem
  have hc'sorted : (k', c'.timestamp) ∈ List.insertionSort tsLe (entryPairs l) :=
    hperm.mem_iff.mpr hc'es
  have hc'drop : (k', c'.timestamp) ∈ (List.insertionSort tsLe (entryPairs l)).drop n := by
    have hsplit : (k', c'.timestamp) ∈
        (List.insertionSort tsLe (entryPairs l)).take n ++
          (List.insertionSort tsLe (entryPairs l)).drop n := by
      rw [List.take_append_drop]
      exact hc'sorted
    rcases List.mem_append.mp hsplit with h | h
    · exact absurd (List.mem_map.mpr ⟨(k', c'.timestamp), h, rfl⟩) hkks'
    · exact h
  refine ⟨?_, hprc, hc'drop⟩
  exact sorted_take_drop_tsLe n (entryPairs l) _ hprc _ hc'drop

theorem sorted_take_drop_ts_ne (n : Nat) (es : List (List Nat × Int))
    (hts : (es.map Prod.snd).Nodup) :
    ∀ x ∈ (List.insertionSort tsLe es).take n,
      ∀ y ∈ (List.insertionSort tsLe es).drop n, x.2 ≠ y.2 := by
  have h1 : ((List.insertionSort tsLe es).map Prod.snd).Nodup :=
    ((List.perm_insertionSort tsLe es).map Prod.snd).nodup_iff.mpr hts
  have h2 : (List.insertionSort tsLe es).Pairwise fun a b => a.2 ≠ b.2 :=
    List.pairwise_map.mp h1
  have hsplit :
      ((List.insertionSort tsLe es).take n ++
        (List.insertionSort tsLe es).drop n).Pairwise fun a b => a.2 ≠ b.2 := by
    rw [List.take_append_drop]
    exact h2
  exact (List.pairwise_append.mp hsplit).2.2

/-- C6: when the underlying write of `setAnalysis` fails with
`QuotaExceededError`, the cache clears the 5 oldest parseable entries by
`createdAt` (every evicted entry is no newer than any survivor, and exactly
`min 5 n` cells go), retries the write exactly once, and swallows a failing
retry — the caller always just gets back a store, never an error. -/
theorem setAnalysis_quota_recovery {α β : Type} (ed : List Nat → List Nat)
    (env : Nat → WriteRes) (st : Store α β) (domainUrl : List Nat)
    (urls : List (List Nat)) (sw : α) (se : β) (ttl now : Int)
    (hq : env 0 = WriteRes.quota) (hnd : (st.items.map Prod.fst).Nodup) :
    (env 1 = WriteRes.ok →
        setAnalysisE ed env st domainUrl urls sw se ttl now =
          { clearOldestEntries 5 st with
              items := setItem
                (generateCacheKey (ed domainUrl) (generateUrlsHash urls))
                (Val.entry
                  { domain := ed domainUrl, urlsHash := generateUrlsHash urls,
                    timestamp := now, ttl := ttl, sitewide := sw, seo := se })
                (clearOldestEntries 5 st).items }) ∧
      (env 1 ≠ WriteRes.ok →
        setAnalysisE ed env st domainUrl urls sw se ttl now =
          clearOldestEntries 5 st) ∧
      ((clearOldestEntries 5 st).items.length =
        st.items.length - min 5 (entryPairs st.items).length) ∧
      (∀ k c, (k, Val.entry c) ∈ st.items →
        (k, Val.entry c) ∉ (clearOldestEntries 5 st).items →
        ∀ k' c', (k', Val.entry c') ∈ (clearOldestEntries 5 st).items →
          c.timestamp ≤ c'.timestamp) := by
  refine ⟨?_, ?_, ?_, ?_⟩
  · intro h1
    unfold setAnalysisE
    rw [hq]
    simp only [h1]
  · intro h1
    unfold setAnalysisE
    rw [hq]
    cases he : env 1 with
    | ok => exact absurd he h1
    | quota => rfl
    | failed => rfl
  · show (eraseKeys _ st.items).length = _
    rw [evict_take_length (min 5 (entryPairs st.items).length) st.items hnd]
    rw [min_assoc, min_self]
  · intro k c hmem hrem k' c' hkept
    exact (evict_take_oldest (min 5 (entryPairs st.items).length) st.items hnd
      k c hmem hrem k' c' hkept).1

/-- C6 (witness): a quota failure on the empty store with a failing retry. -/
theorem setAnalysis_quota_recovery_witness :
    (((fun n => if n = 0 then WriteRes.quota else WriteRes.failed) 1) = WriteRes.ok →
        setAnalysisE (α := Nat) (β := Nat) id
            (fun n => if n = 0 then WriteRes.quota else WriteRes.failed)
            ⟨[], none⟩ [] [] 1 2 100 0 =
          { clearOldestEntries 5 (⟨[], none⟩ : Store Nat Nat) with
              items := setItem (generateCacheKey (id []) (generateUrlsHash []))
                (Val.entry
                  { domain := id [], urlsHash := generateUrlsHash [],
                    timestamp := 0, ttl := 100, sitewide := 1, seo := 2 })
                (clearOldestEntries 5 (⟨[], none⟩ : Store Nat Nat)).items }) ∧
      (((fun n => if n = 0 then WriteRes.quota else WriteRes.failed) 1) ≠ WriteRes.ok →
        setAnalysisE (α := Nat) (β := Nat) id
            (fun n => if n = 0 then WriteRes.quota else WriteRes.failed)
            ⟨[], none⟩ [] [] 1 2 100 0 =
          clearOldestEntries 5 ⟨[], none⟩) ∧
      ((clearOldestEntries 5 (⟨[], none⟩ : Store Nat Nat)).items.length =
        ([] : List (List Nat × Val Nat Nat)).length -
          min 5 (entryPairs ([] : List (List Nat × Val Nat Nat))).length) ∧
      (∀ k c, (k, Val.entry c) ∈ ([] : List (List Nat × Val Nat Nat)) →
        (k, Val.entry c) ∉ (clearOldestEntries 5 (⟨[], none⟩ : Store Nat Nat)).items →
        ∀ k' c', (k', Val.entry c') ∈
            (clearOldestEntries 5 (⟨[], none⟩ : Store Nat Nat)).items →
          c.timestamp ≤ c'.timestamp) :=
  setAnalysis_quota_recovery id
    (fun n => if n = 0 then WriteRes.quota else WriteRes.failed)
    ⟨[], none⟩ [] [] 1 2 100 0 (by decide) (by decide)

/-- C7: when the store holds `N > 50` parseable entries with distinct keys
and distinct creation timestamps and the metadata counter equals `N`, size
enforcement leaves exactly 50 cells, resets the counter to 50, and every
evicted entry is strictly older than every retained one (the retained
entries are the 50 most recently created). -/
theorem enforceCacheLimit_retains_newest {α β : Type} (st : Store α β)
    (m : CacheMetadata) (now : Int)
    (hall : ∀ p ∈ st.items, ∃ c, p.2 = Val.entry c)
    (hnd : (st.items.map Prod.fst).Nodup)
    (hts : ((entryPairs st.items).map Prod.snd).Nodup)
    (hm : st.meta = some m)
    (hcnt : m.entries = (st.items.length : Int))
    (hbig : 50 < st.items.length) :
    (enforceCacheLimit st now).items.length = 50 ∧
      (getMetadata (enforceCacheLimit st now) now).entries = 50 ∧
      (∀ k c, (k, Val.entry c) ∈ st.items →
        (k, Val.entry c) ∉ (enforceCacheLimit st now).items →
        ∀ k' c', (k', Val.entry c') ∈ (enforceCacheLimit st now).items →
          c.timestamp < c'.timestamp) := by
  have hlen : (entryPairs st.items).length = st.items.length :=
    entryPairs_length_of_all_entries st.items hall
  have hgate : ¬m.entries ≤ 50 := by
    rw [hcnt]
    exact_mod_cast Nat.not_le.mpr hbig
  have hpos : 0 < (entryPairs st.items).length - 50 := by omega
  have hred : enforceCacheLimit st now =
      { items := eraseKeys
          (((List.insertionSort tsLe (entryPairs st.items)).take
              ((entryPairs st.items).length - 50)).map Prod.fst) st.items,
        meta := some { getMetadata st now with entries := 50 } } := by
    unfold enforceCacheLimit
    rw [show getMetadata st now = m by unfold getMetadata; rw [hm]]
    rw [if_neg hgate, if_pos hpos]
  refine ⟨?_, ?_, ?_⟩
  · rw [hred]
    show (eraseKeys _ st.items).length = 50
    rw [evict_take_length ((entryPairs st.items).length - 50) st.items hnd]
    omega
  · rw [hred]
    rfl
  · intro k c hmem hrem k' c' hkept
    rw [hred] at hrem hkept
    have h1 := evict_take_oldest ((entryPairs st.items).length - 50) st.items hnd
      k c hmem hrem k' c' hkept
    have hne := sorted_take_drop_ts_ne ((entryPairs st.items).length - 50)
      (entryPairs st.items) hts (k, c.timestamp) h1.2.1 (k', c'.timestamp) h1.2.2
    exact lt_of_le_of_ne h1.1 hne

/-- A demonstration store: 51 entries with distinct keys and timestamps. -/
def demo51 : List (List Nat × Val Nat Nat) :=
  (List.range 51).map fun i => ([i], Val.entry ⟨[], [], (i : Int), 0, 0, 0⟩)

/-- C7 (witness): 51 entries with distinct keys and timestamps are cut back
to the 50 newest. -/
theorem enforceCacheLimit_retains_newest_witness :
    (enforceCacheLimit (⟨demo51, some ⟨0, 51⟩⟩ : Store Nat Nat) 0).items.length = 50 ∧
      (getMetadata (enforceCacheLimit (⟨demo51, some ⟨0, 51⟩⟩ : Store Nat Nat) 0)
          0).entries = 50 ∧
      (∀ (k : List Nat) (c : CachedAnalysis Nat Nat),
        (k, Val.entry c) ∈ (⟨demo51, some ⟨0, 51⟩⟩ : Store Nat Nat).items →
        (k, Val.entry c) ∉
          (enforceCacheLimit (⟨demo51, some ⟨0, 51⟩⟩ : Store Nat Nat) 0).items →
        ∀ (k' : List Nat) (c' : CachedAnalysis Nat Nat),
          (k', Val.entry c') ∈
            (enforceCacheLimit (⟨demo51, some ⟨0, 51⟩⟩ : Store Nat Nat) 0).items →
          c.timestamp < c'.timestamp) :=
  enforceCacheLimit_retains_newest ⟨demo51, some ⟨0, 51⟩⟩ ⟨0, 51⟩ 0
    (by
      intro p hp
      obtain ⟨i, _, rfl⟩ := List.mem_map.mp hp
      exact ⟨_, rfl⟩)
    (by decide) (by decide) (by decide) (by decide) (by decide)

/-! ### Pipeline orchestrator (`handleSubmit` in the bundled App.tsx)

The seven stages, the per-stage update helpers, and the control flow of
`handleSubmit` are embedded with the external collaborators as oracles:
`crawl` (set of discovered URLs or a descriptive error), the cache lookup
result, the pure ranker, the two `Promise.all` analysis providers, and the
action-plan and summary generators.  `now` stands for `Date.now()`.
Narrative task-label strings and the numeric progress callbacks of the crawl
stage are telemetry with no control-flow effect and are elided ( `[]` as the
task label).  A ghost `trace` field records every stage-status transition in
program order so temporal properties can be stated. -/

inductive StageStatus where
  | pending
  | running
  | complete
  | error
  | skipped
deriving DecidableEq

inductive StageId where
  | crawl
  | rank
  | competitor
  | technical
  | content
  | actionplan
  | summary
deriving DecidableEq

/-- One `PipelineStage` (id, status, progress, timing, narrative task). -/
structure Stage where
  sid : StageId
  status : StageStatus
  progress : Int
  startTime : Option Int
  endTime : Option Int
  currentTask : Option (List Nat)
deriving DecidableEq

/-- The progressive result accumulator (`PartialResults` in the source). -/
structure RunResults (α β γ δ : Type) where
  sitewideAnalysis : Option α
  seoAnalysis : Option β
  actionPlan : Option γ
  executiveSummary : Option δ
  urlsDiscovered : Option Nat
  urlsAnalyzed : Option Nat
deriving DecidableEq

def emptyResults {α β γ δ : Type} : RunResults α β γ δ :=
  ⟨none, none, none, none, none, none⟩

/-- The orchestrator's mutable state: the stage list, the result
accumulator, and the ghost transition trace. -/
structure PState (α β γ δ : Type) where
  stages : List Stage
  results : RunResults α β γ δ
  trace : List (StageId × StageStatus)
deriving DecidableEq

/-- `PIPELINE_STAGE_DEFINITIONS` with `status: pending, progress: 0`. -/
def initStages : List Stage :=
  [⟨StageId.crawl, StageStatus.pending, 0, none, none, none⟩,
   ⟨StageId.rank, StageStatus.pending, 0, none, none, none⟩,
   ⟨StageId.competitor, StageStatus.pending, 0, none, none, none⟩,
   ⟨StageId.technical, StageStatus.pending, 0, none, none, none⟩,
   ⟨StageId.content, StageStatus.pending, 0, none, none, none⟩,
   ⟨StageId.actionplan, StageStatus.pending, 0, none, none, none⟩,
   ⟨StageId.summary, StageStatus.pending, 0, none, none, none⟩]

def initPState {α β γ δ : Type} : PState α β γ δ := ⟨initStages, emptyResults, []⟩

/-- `updateStage(id, { status: running, startTime, currentTask })`. -/
def setStageRunning {α β γ δ : Type} (s : PState α β γ δ) (sid : StageId)
    (now : Int) (task : List Nat) : PState α β γ δ :=
  { s with
    stages := s.stages.map fun st =>
      if st.sid = sid then
        { st with status := StageStatus.running, startTime := some now,
                  currentTask := some task }
      else st,
    trace := s.trace ++ [(sid, StageStatus.running)] }

/-- `updateStage(id, { status: complete, progress: 100, endTime })` (also the
cache-hit fast-forward uses exactly this update). -/
def setStageComplete {α β γ δ : Type} (s : PState α β γ δ) (sid : StageId)
    (now : Int) : PState α β γ δ :=
  { s with
    stages := s.stages.map fun st =>
      if st.sid = sid then
        { st with status := StageStatus.complete, progress := 100,
                  endTime := some now }
      else st,
    trace := s.trace ++ [(sid, StageStatus.complete)] }

/-- `setPartialResults(prev => ({ ...prev, ... }))`. -/
def updResults {α β γ δ : Type} (s : PState α β γ δ)
    (f : RunResults α β γ δ → RunResults α β γ δ) : PState α β γ δ :=
  { s with results := f s.results }

/-- The catch handler's stage transform (App.tsx lines 1631-1633): every
`running` stage becomes `error`; nothing else is touched. -/
def forceErrorRunning (l : List Stage) : List Stage :=
  l.map fun s =>
    if s.status = StageStatus.running then { s with status := StageStatus.error }
    else s

/-- The whole catch handler effect on the orchestrator state. -/
def failRun {α β γ δ : Type} (s : PState α β γ δ) : PState α β γ δ :=
  { s with
    stages := forceErrorRunning s.stages,
    trace := s.trace ++
      ((s.stages.filter fun st => decide (st.status = StageStatus.running)).map
        fun st => (st.sid, StageStatus.error)) }

/-- What one `handleSubmit` run produced: the final orchestrator state, the
terminal status (`none` = results, `some msg` = error with that message),
and which collaborators were consulted and with which payload arguments. -/
structure Outcome (α β γ δ : Type) where
  ps : PState α β γ δ
  final : Option (List Nat)
  invokedRank : Bool
  invokedSitewide : Bool
  invokedSeo : Bool
  cacheWrite : Option (α × β)
  apArgs : Option (α × β)
  summaryArgs : Option (α × β)
deriving DecidableEq

/-- The `throw new Error(...)` message for an empty crawl result. -/
def emptyCrawlMsg : List Nat :=
  ("Crawl complete, but no URLs were found. Your sitemap might be empty or in a format that could not be parsed.").toList.map Char.toNat

/-- The tail shared by both paths (duplicated verbatim in the source): run
`actionplan`, then `summary`, against the payload pair `(sw, se)`. -/
def runFinalStages {α β γ δ : Type} (apO : α → β → Except (List Nat) γ)
    (sumO : α → β → Except (List Nat) δ) (now : Int) (sw : α) (se : β)
    (s : PState α β γ δ) (ir isw ise : Bool) (cw : Option (α × β)) :
    Outcome α β γ δ :=
  let s1 := setStageRunning s StageId.actionplan now []
  match apO sw se with
  | Except.error e => ⟨failRun s1, some e, ir, isw, ise, cw, some (sw, se), none⟩
  | Except.ok ap =>
    let s2 := updResults (setStageComplete s1 StageId.actionplan now)
      fun r => { r with actionPlan := some ap }
    let s3 := setStageRunning s2 StageId.summary now []
    match sumO sw se with
    | Except.error e =>
      ⟨failRun s3, some e, ir, isw, ise, cw, some (sw, se), some (sw, se)⟩
    | Except.ok esum =>
      let s4 := updResults (setStageComplete s3 StageId.summary now)
        fun r => { r with executiveSummary := some esum }
      ⟨s4, none, ir, isw, ise, cw, some (sw, se), some (sw, se)⟩

/-- The control flow of `handleSubmit` (App.tsx lines 1374-1637). -/
def handleSubmit {α β γ δ : Type}
    (crawl : Except (List Nat) (List (List Nat)))
    (cached : Option (α × β))
    (rankFn : List (List Nat) → List (List Nat))
    (sitewideO : Except (List Nat) α)
    (seoO : Except (List Nat) β)
    (apO : α → β → Except (List Nat) γ)
    (sumO : α → β → Except (List Nat) δ)
    (now : Int) : Outcome α β γ δ :=
  let s1 := setStageRunning initPState StageId.crawl now []
  match crawl with
  | Except.error e => ⟨failRun s1, some e, false, false, false, none, none, none⟩
  | Except.ok urls =>
    let s2 := updResults (setStageComplete s1 StageId.crawl now)
      fun r => { r with urlsDiscovered := some urls.length }
    if urls = [] then
      ⟨failRun s2, some emptyCrawlMsg, false, false, false, none, none, none⟩
    else
      match cached with
      | some (sw, se) =>
        -- cache hit: fast-forward rank/competitor/technical/content to
        -- complete, replace the accumulator with the cached payloads, and
        -- regenerate actionplan and summary fresh from the cached pair.
        let s3 := setStageComplete s2 StageId.rank now
        let s4 := setStageComplete s3 StageId.competitor now
        let s5 := setStageComplete s4 StageId.technical now
        let s6 := setStageComplete s5 StageId.content now
        let s7 := updResults s6 fun _ =>
          { (emptyResults : RunResults α β γ δ) with
              urlsDiscovered := some urls.length,
              sitewideAnalysis := some sw,
              seoAnalysis := some se }
        runFinalStages apO sumO now sw se s7 false false false none
      | none =>
        let s3 := setStageRunning s2 StageId.rank now []
        let inputUrls := (rankFn urls).take 100
        let s4 := updResults (setStageComplete s3 StageId.rank now)
          fun r => { r with urlsAnalyzed := some inputUrls.length }
        let s5 := setStageRunning s4 StageId.competitor now []
        let s6 := setStageRunning s5 StageId.technical now []
        let s7 := setStageRunning s6 StageId.content now []
        match sitewideO with
        | Except.error e =>
          ⟨failRun s7, some e, true, true, true, none, none, none⟩
        | Except.ok sw =>
          match seoO with
          | Except.error e =>
            ⟨failRun s7, some e, true, true, true, none, none, none⟩
          | Except.ok se =>
            let s8 := setStageComplete s7 StageId.competitor now
            let s9 := setStageComplete s8 StageId.technical now
            let s10 := setStageComplete s9 StageId.content now
            let s11 := updResults s10 fun r =>
              { r with sitewideAnalysis := some sw, seoAnalysis := some se }
            runFinalStages apO sumO now sw se s11 true true true (some (sw, se))

/-- The final status of the stage with the given id. -/
def stageStatusOf {α β γ δ : Type} (o : Outcome α β γ δ) (sid : StageId) :
    StageStatus :=
  match o.ps.stages.find? fun st => decide (st.sid = sid) with
  | some st => st.status
  | none => StageStatus.pending

/-- No `running` transition occurs after any `error` transition. -/
def noRunAfterErr : List (StageId × StageStatus) → Bool
  | [] => true
  | (_, s) :: rest =>
    if s = StageStatus.error then
      (rest.all fun p => decide (p.2 ≠ StageStatus.running)) && noRunAfterErr rest
    else noRunAfterErr rest

def errList {ε ρ : Type} : Except ε ρ → List ε
  | Except.error e => [e]
  | Except.ok _ => []

/-- The error messages a run could legitimately terminate with: the crawl
error, the empty-sitemap message, or an error of a collaborator that the
taken path actually consults. -/
def possibleErrorMsgs {α β γ δ : Type}
    (crawl : Except (List Nat) (List (List Nat))) (cached : Option (α × β))
    (sitewideO : Except (List Nat) α) (seoO : Except (List Nat) β)
    (apO : α → β → Except (List Nat) γ) (sumO : α → β → Except (List Nat) δ) :
    List (List Nat) :=
  errList crawl ++ [emptyCrawlMsg] ++
    (match cached with
     | some (sw, se) => errList (apO sw se) ++ errList (sumO sw se)
     | none =>
       errList sitewideO ++ errList seoO ++
         (match sitewideO, seoO with
          | Except.ok sw, Except.ok se => errList (apO sw se) ++ errList (sumO sw se)
          | _, _ => []))

/-- C10: the failure handler is a frame-respecting transform — a stage that
is not `running` (pending, complete, skipped, or already error) is passed
through identically (status, progress, timing, task all unchanged), and a
`running` stage changes status to `error` and nothing else. -/
theorem forceErrorRunning_frame (l : List Stage) (i : Nat) (s : Stage)
    (h : l[i]? = some s) :
    (s.status ≠ StageStatus.running → (forceErrorRunning l)[i]? = some s) ∧
      (s.status = StageStatus.running →
        (forceErrorRunning l)[i]? = some { s with status := StageStatus.error }) := by
  unfold forceErrorRunning
  constructor
  · intro hs
    rw [List.getElem?_map, h]
    simp [hs]
  · intro hs
    rw [List.getElem?_map, h]
    simp [hs]

/-- C10 (witness): a two-stage list with one running and one pending stage. -/
theorem forceErrorRunning_frame_witness :
    ((⟨StageId.rank, StageStatus.pending, 0, none, none, none⟩ : Stage).status ≠
        StageStatus.running →
      (forceErrorRunning
          [⟨StageId.crawl, StageStatus.running, 0, none, none, none⟩,
           ⟨StageId.rank, StageStatus.pending, 0, none, none, none⟩])[1]? =
        some ⟨StageId.rank, StageStatus.pending, 0, none, none, none⟩) ∧
      ((⟨StageId.rank, StageStatus.pending, 0, none, none, none⟩ : Stage).status =
          StageStatus.running →
        (forceErrorRunning
            [⟨StageId.crawl, StageStatus.running, 0, none, none, none⟩,
             ⟨StageId.rank, StageStatus.pending, 0, none, none, none⟩])[1]? =
          some { (⟨StageId.rank, StageStatus.pending, 0, none, none, none⟩ : Stage) with
                   status := StageStatus.error }) :=
  forceErrorRunning_frame
    [⟨StageId.crawl, StageStatus.running, 0, none, none, none⟩,
     ⟨StageId.rank, StageStatus.pending, 0, none, none, none⟩] 1
    ⟨StageId.rank, StageStatus.pending, 0, none, none, none⟩ (by decide)

set_option maxHeartbeats 2000000 in
/-- C4: on a run whose cache lookup after the crawl returns a hit, the
orchestrator marks rank, competitor, technical, and content as complete (or
skipped) without consulting the ranker or either analysis provider, loads
the cached payload pair into the result accumulator, and still runs the
action-plan and summary generators against exactly that cached pair. -/
theorem cache_hit_fast_path {α β γ δ : Type}
    (urls : List (List Nat)) (sw : α) (se : β)
    (rankFn : List (List Nat) → List (List Nat))
    (sitewideO : Except (List Nat) α) (seoO : Except (List Nat) β)
    (apO : α → β → Except (List Nat) γ) (sumO : α → β → Except (List Nat) δ)
    (now : Int) (ap : γ) (o : Outcome α β γ δ)
    (hurls : urls ≠ [])
    (hap : apO sw se = Except.ok ap)
    (ho : o = handleSubmit (Except.ok urls) (some (sw, se)) rankFn sitewideO
        seoO apO sumO now) :
    o.invokedRank = false ∧ o.invokedSitewide = false ∧ o.invokedSeo = false ∧
      (stageStatusOf o StageId.rank = StageStatus.complete ∨
        stageStatusOf o StageId.rank = StageStatus.skipped) ∧
      (stageStatusOf o StageId.competitor = StageStatus.complete ∨
        stageStatusOf o StageId.competitor = StageStatus.skipped) ∧
      (stageStatusOf o StageId.technical = StageStatus.complete ∨
        stageStatusOf o StageId.technical = StageStatus.skipped) ∧
      (stageStatusOf o StageId.content = StageStatus.complete ∨
        stageStatusOf o StageId.content = StageStatus.skipped) ∧
      o.ps.results.sitewideAnalysis = some sw ∧
      o.ps.results.seoAnalysis = some se ∧
      o.apArgs = some (sw, se) ∧ o.summaryArgs = some (sw, se) := by
  subst ho
  cases hsum : sumO sw se with
  | error e =>
    simp [handleSubmit, runFinalStages, hurls, hap, hsum, stageStatusOf,
      setStageRunning, setStageComplete, updResults, initPState, initStages,
      failRun, forceErrorRunning, emptyResults, List.find?, List.map]
  | ok esum =>
    simp [handleSubmit, runFinalStages, hurls, hap, hsum, stageStatusOf,
      setStageRunning, setStageComplete, updResults, initPState, initStages,
      failRun, forceErrorRunning, emptyResults, List.find?, List.map]

/-- C4 (witness): a concrete cache-hit run. -/
theorem cache_hit_fast_path_witness :
    (handleSubmit (γ := Nat) (δ := Nat) (Except.ok [[97]]) (some (1, 2)) id
        (Except.ok 0) (Except.ok 0) (fun _ _ => Except.ok 7)
        (fun _ _ => Except.ok 8) 0).invokedRank = false ∧
      (handleSubmit (γ := Nat) (δ := Nat) (Except.ok [[97]]) (some (1, 2)) id
        (Except.ok 0) (Except.ok 0) (fun _ _ => Except.ok 7)
        (fun _ _ => Except.ok 8) 0).invokedSitewide = false ∧
      (handleSubmit (γ := Nat) (δ := Nat) (Except.ok [[97]]) (some (1, 2)) id
        (Except.ok 0) (Except.ok 0) (fun _ _ => Except.ok 7)
        (fun _ _ => Except.ok 8) 0).invokedSeo = false ∧
      (stageStatusOf (handleSubmit (γ := Nat) (δ := Nat) (Except.ok [[97]])
          (some (1, 2)) id (Except.ok 0) (Except.ok 0) (fun _ _ => Except.ok 7)
          (fun _ _ => Except.ok 8) 0) StageId.rank = StageStatus.complete ∨
        stageStatusOf (handleSubmit (γ := Nat) (δ := Nat) (Except.ok [[97]])
          (some (1, 2)) id (Except.ok 0) (Except.ok 0) (fun _ _ => Except.ok 7)
          (fun _ _ => Except.ok 8) 0) StageId.rank = StageStatus.skipped) ∧
      (stageStatusOf (handleSubmit (γ := Nat) (δ := Nat) (Except.ok [[97]])
          (some (1, 2)) id (Except.ok 0) (Except.ok 0) (fun _ _ => Except.ok 7)
          (fun _ _ => Except.ok 8) 0) StageId.competitor = StageStatus.complete ∨
        stageStatusOf (handleSubmit (γ := Nat) (δ := Nat) (Except.ok [[97]])
          (some (1, 2)) id (Except.ok 0) (Except.ok 0) (fun _ _ => Except.ok 7)
          (fun _ _ => Except.ok 8) 0) StageId.competitor = StageStatus.skipped) ∧
      (stageStatusOf (handleSubmit (γ := Nat) (δ := Nat) (Except.ok [[97]])
          (some (1, 2)) id (Except.ok 0) (Except.ok 0) (fun _ _ => Except.ok 7)
          (fun _ _ => Except.ok 8) 0) StageId.technical = StageStatus.complete ∨
        stageStatusOf (handleSubmit (γ := Nat) (δ := Nat) (Except.ok [[97]])
          (some (1, 2)) id (Except.ok 0) (Except.ok 0) (fun _ _ => Except.ok 7)
          (fun _ _ => Except.ok 8) 0) StageId.technical = StageStatus.skipped) ∧
      (stageStatusOf (handleSubmit (γ := Nat) (δ := Nat) (Except.ok [[97]])
          (some (1, 2)) id (Except.ok 0) (Except.ok 0) (fun _ _ => Except.ok 7)
          (fun _ _ => Except.ok 8) 0) StageId.content = StageStatus.complete ∨
        stageStatusOf (handleSubmit (γ := Nat) (δ := Nat) (Except.ok [[97]])
          (some (1, 2)) id (Except.ok 0) (Except.ok 0) (fun _ _ => Except.ok 7)
          (fun _ _ => Except.ok 8) 0) StageId.content = StageStatus.skipped) ∧
      (handleSubmit (γ := Nat) (δ := Nat) (Except.ok [[97]]) (some (1, 2)) id
        (Except.ok 0) (Except.ok 0) (fun _ _ => Except.ok 7)
        (fun _ _ => Except.ok 8) 0).ps.results.sitewideAnalysis = some 1 ∧
      (handleSubmit (γ := Nat) (δ := Nat) (Except.ok [[97]]) (some (1, 2)) id
        (Except.ok 0) (Except.ok 0) (fun _ _ => Except.ok 7)
        (fun _ _ => Except.ok 8) 0).ps.results.seoAnalysis = some 2 ∧
      (handleSubmit (γ := Nat) (δ := Nat) (Except.ok [[97]]) (some (1, 2)) id
        (Except.ok 0) (Except.ok 0) (fun _ _ => Except.ok 7)
        (fun _ _ => Except.ok 8) 0).apArgs = some (1, 2) ∧
      (handleSubmit (γ := Nat) (δ := Nat) (Except.ok [[97]]) (some (1, 2)) id
        (Except.ok 0) (Except.ok 0) (fun _ _ => Except.ok 7)
        (fun _ _ => Except.ok 8) 0).summaryArgs = some (1, 2) :=
  cache_hit_fast_path [[97]] 1 2 id (Except.ok 0) (Except.ok 0)
    (fun _ _ => Except.ok 7) (fun _ _ => Except.ok 8) 0 7 _
    (by decide) rfl rfl

/-- The message of the first collaborator to fail along the taken path, in
pipeline order (crawl, then the empty-crawl check, then — depending on the
cache junction — the two parallel analysis providers, the action-plan
generator, the summary generator); `none` when no stage fails.  This is the
spec's failure-propagation order, used to state that the run's terminal
message is exactly the triggering one. -/
def triggeringError {α β γ δ : Type}
    (crawl : Except (List Nat) (List (List Nat))) (cached : Option (α × β))
    (sitewideO : Except (List Nat) α) (seoO : Except (List Nat) β)
    (apO : α → β → Except (List Nat) γ) (sumO : α → β → Except (List Nat) δ) :
    Option (List Nat) :=
  match crawl with
  | Except.error e => some e
  | Except.ok urls =>
    if urls = [] then some emptyCrawlMsg
    else
      match cached with
      | some (sw, se) =>
        match apO sw se with
        | Except.error e => some e
        | Except.ok _ =>
          match sumO sw se with
          | Except.error e => some e
          | Except.ok _ => none
      | none =>
        match sitewideO with
        | Except.error e => some e
        | Except.ok sw =>
          match seoO with
          | Except.error e => some e
          | Except.ok se =>
            match apO sw se with
            | Except.error e => some e
            | Except.ok _ =>
              match sumO sw se with
              | Except.error e => some e
              | Except.ok _ => none

set_option maxHeartbeats 8000000 in
/-- C5: whenever a run terminates with an error, (1) the preserved message
is exactly the first failing collaborator's message along the taken path;
(2) no stage is left `running` and the transition trace never starts a
stage after an error transition; (3) at each failure point the stages that
were running at that moment end as `error` and the stages not yet started
stay `pending` (crawl failure: crawl `error`, everything else `pending`;
empty crawl: crawl `complete`, everything else `pending`; parallel-stage
failure: competitor/technical/content `error`, rank `complete`,
actionplan/summary `pending`; action-plan failure: actionplan `error`,
summary `pending`; summary failure: summary `error`, actionplan
`complete`); and (4) every result slot accumulated before the failure
remains readable: the discovered count after a successful crawl, the
analyzed count after rank on the miss path, the payload pair once it is
cached-in or freshly produced, and the action plan once generated. -/
theorem run_failure_semantics {α β γ δ : Type}
    (crawl : Except (List Nat) (List (List Nat))) (cached : Option (α × β))
    (rankFn : List (List Nat) → List (List Nat))
    (sitewideO : Except (List Nat) α) (seoO : Except (List Nat) β)
    (apO : α → β → Except (List Nat) γ) (sumO : α → β → Except (List Nat) δ)
    (now : Int) (msg : List Nat) (o : Outcome α β γ δ)
    (ho : o = handleSubmit crawl cached rankFn sitewideO seoO apO sumO now)
    (hfail : o.final = some msg) :
    triggeringError crawl cached sitewideO seoO apO sumO = some msg ∧
      (o.ps.stages.all fun st => decide (st.status ≠ StageStatus.running)) = true ∧
      noRunAfterErr o.ps.trace = true ∧
      (∀ e, crawl = Except.error e →
        stageStatusOf o StageId.crawl = StageStatus.error ∧
        stageStatusOf o StageId.rank = StageStatus.pending ∧
        stageStatusOf o StageId.competitor = StageStatus.pending ∧
        stageStatusOf o StageId.technical = StageStatus.pending ∧
        stageStatusOf o StageId.content = StageStatus.pending ∧
        stageStatusOf o StageId.actionplan = StageStatus.pending ∧
        stageStatusOf o StageId.summary = StageStatus.pending) ∧
      (∀ urls, crawl = Except.ok urls →
        stageStatusOf o StageId.crawl = StageStatus.complete ∧
        o.ps.results.urlsDiscovered = some urls.length) ∧
      (∀ urls, crawl = Except.ok urls → urls = [] →
        stageStatusOf o StageId.rank = StageStatus.pending ∧
        stageStatusOf o StageId.competitor = StageStatus.pending ∧
        stageStatusOf o StageId.technical = StageStatus.pending ∧
        stageStatusOf o StageId.content = StageStatus.pending ∧
        stageStatusOf o StageId.actionplan = StageStatus.pending ∧
        stageStatusOf o StageId.summary = StageStatus.pending) ∧
      (∀ urls, crawl = Except.ok urls → urls ≠ [] → cached = none →
        stageStatusOf o StageId.rank = StageStatus.complete ∧
        o.ps.results.urlsAnalyzed = some ((rankFn urls).take 100).length) ∧
      (∀ urls, crawl = Except.ok urls → urls ≠ [] → cached = none →
        ((∃ e, sitewideO = Except.error e) ∨ (∃ e, seoO = Except.error e)) →
        stageStatusOf o StageId.competitor = StageStatus.error ∧
        stageStatusOf o StageId.technical = StageStatus.error ∧
        stageStatusOf o StageId.content = StageStatus.error ∧
        stageStatusOf o StageId.actionplan = StageStatus.pending ∧
        stageStatusOf o StageId.summary = StageStatus.pending) ∧
      (∀ urls sw se, crawl = Except.ok urls → urls ≠ [] →
        (cached = some (sw, se) ∨
          (cached = none ∧ sitewideO = Except.ok sw ∧ seoO = Except.ok se)) →
        o.ps.results.sitewideAnalysis = some sw ∧
        o.ps.results.seoAnalysis = some se ∧
        stageStatusOf o StageId.competitor = StageStatus.complete ∧
        stageStatusOf o StageId.technical = StageStatus.complete ∧
        stageStatusOf o StageId.content = StageStatus.complete) ∧
      (∀ urls sw se e, crawl = Except.ok urls → urls ≠ [] →
        (cached = some (sw, se) ∨
          (cached = none ∧ sitewideO = Except.ok sw ∧ seoO = Except.ok se)) →
        apO sw se = Except.error e →
        stageStatusOf o StageId.actionplan = StageStatus.error ∧
        stageStatusOf o StageId.summary = StageStatus.pending) ∧
      (∀ urls sw se ap, crawl = Except.ok urls → urls ≠ [] →
        (cached = some (sw, se) ∨
          (cached = none ∧ sitewideO = Except.ok sw ∧ seoO = Except.ok se)) →
        apO sw se = Except.ok ap →
        o.ps.results.actionPlan = some ap ∧
        stageStatusOf o StageId.actionplan = StageStatus.complete ∧
        (∀ e, sumO sw se = Except.error e →
          stageStatusOf o StageId.summary = StageStatus.error)) := by
  subst ho
  rcases crawl with e | urls
  · simp [handleSubmit, triggeringError, failRun, forceErrorRunning,
      setStageRunning, initPState, initStages, noRunAfterErr, stageStatusOf,
      List.find?] at hfail ⊢
    subst hfail
    simp
  · by_cases hemp : urls = []
    · subst hemp
      simp [handleSubmit, triggeringError, failRun, forceErrorRunning,
        setStageRunning, setStageComplete, updResults, initPState, initStages,
        noRunAfterErr, stageStatusOf, List.find?] at hfail ⊢
      subst hfail
      simp
      try (repeat' apply And.intro)
      all_goals try (intros; subst_vars; simp_all)
    · rcases cached with _ | ⟨sw, se⟩
      · rcases hsw : sitewideO with e | sw
        · simp [handleSubmit, triggeringError, hemp, hsw, failRun,
            forceErrorRunning, setStageRunning, setStageComplete, updResults,
            initPState, initStages, noRunAfterErr, stageStatusOf,
            List.find?] at hfail ⊢
          subst hfail
          simp
        · rcases hseo : seoO with e | se
          · simp [handleSubmit, triggeringError, hemp, hsw, hseo, failRun,
              forceErrorRunning, setStageRunning, setStageComplete, updResults,
              initPState, initStages, noRunAfterErr, stageStatusOf,
              List.find?] at hfail ⊢
            subst hfail
            simp
          · rcases hap : apO sw se with e | ap
            · simp [handleSubmit, runFinalStages, triggeringError, hemp, hsw,
                hseo, hap, failRun, forceErrorRunning, setStageRunning,
                setStageComplete, updResults, initPState, initStages,
                noRunAfterErr, stageStatusOf, List.find?] at hfail ⊢
              subst hfail
              simp
              try (repeat' apply And.intro)
              all_goals try (intros; subst_vars; simp_all)
            · rcases hsum : sumO sw se with e | esum
              · simp [handleSubmit, runFinalStages, triggeringError, hemp,
                  hsw, hseo, hap, hsum, failRun, forceErrorRunning,
                  setStageRunning, setStageComplete, updResults, initPState,
                  initStages, noRunAfterErr, stageStatusOf,
                  List.find?] at hfail ⊢
                subst hfail
                simp
                try (repeat' apply And.intro)
                all_goals try (intros; subst_vars; simp_all)
              · simp [handleSubmit, runFinalStages, hemp, hsw, hseo, hap,
                  hsum] at hfail
      · rcases hap : apO sw se with e | ap
        · simp [handleSubmit, runFinalStages, triggeringError, hemp, hap,
            failRun, forceErrorRunning, setStageRunning, setStageComplete,
            updResults, initPState, initStages, noRunAfterErr, stageStatusOf,
            emptyResults, List.find?] at hfail ⊢
          subst hfail
          simp
          try (repeat' apply And.intro)
          all_goals try (intros; subst_vars; simp_all)
        · rcases hsum : sumO sw se with e | esum
          · simp [handleSubmit, runFinalStages, triggeringError, hemp, hap,
              hsum, failRun, forceErrorRunning, setStageRunning,
              setStageComplete, updResults, initPState, initStages,
              noRunAfterErr, stageStatusOf, emptyResults,
              List.find?] at hfail ⊢
            subst hfail
            simp
            try (repeat' apply And.intro)
            all_goals try (intros; subst_vars; simp_all)
          · simp [handleSubmit, runFinalStages, hemp, hap, hsum] at hfail

/-- A demonstration run whose crawl collaborator fails with message `[120]`. -/
def failDemo : Outcome Nat Nat Nat Nat :=
  handleSubmit (Except.error [120]) none id (Except.ok 0) (Except.ok 0)
    (fun _ _ => Except.ok 0) (fun _ _ => Except.ok 0) 0

/-- C5 (witness): the crawl-failure run preserves exactly the crawler's
message, leaves no stage running, starts nothing after the error, and shows
the per-failure-point status and result-slot guarantees at this input. -/
theorem run_failure_semantics_witness :
    triggeringError (Except.error [120]) (none : Option (Nat × Nat))
        (Except.ok 0) (Except.ok 0) (fun _ _ => Except.ok (0 : Nat))
        (fun _ _ => Except.ok (0 : Nat)) = some [120] ∧
      (failDemo.ps.stages.all
        fun st => decide (st.status ≠ StageStatus.running)) = true ∧
      noRunAfterErr failDemo.ps.trace = true ∧
      (∀ e, (Except.error [120] : Except (List Nat) (List (List Nat))) =
          Except.error e →
        stageStatusOf failDemo StageId.crawl = StageStatus.error ∧
        stageStatusOf failDemo StageId.rank = StageStatus.pending ∧
        stageStatusOf failDemo StageId.competitor = StageStatus.pending ∧
        stageStatusOf failDemo StageId.technical = StageStatus.pending ∧
        stageStatusOf failDemo StageId.content = StageStatus.pending ∧
        stageStatusOf failDemo StageId.actionplan = StageStatus.pending ∧
        stageStatusOf failDemo StageId.summary = StageStatus.pending) ∧
      (∀ urls, (Except.error [120] : Except (List Nat) (List (List Nat))) =
          Except.ok urls →
        stageStatusOf failDemo StageId.crawl = StageStatus.complete ∧
        failDemo.ps.results.urlsDiscovered = some urls.length) ∧
      (∀ urls, (Except.error [120] : Except (List Nat) (List (List Nat))) =
          Except.ok urls → urls = [] →
        stageStatusOf failDemo StageId.rank = StageStatus.pending ∧
        stageStatusOf failDemo StageId.competitor = StageStatus.pending ∧
        stageStatusOf failDemo StageId.technical = StageStatus.pending ∧
        stageStatusOf failDemo StageId.content = StageStatus.pending ∧
        stageStatusOf failDemo StageId.actionplan = StageStatus.pending ∧
        stageStatusOf failDemo StageId.summary = StageStatus.pending) ∧
      (∀ urls, (Except.error [120] : Except (List Nat) (List (List Nat))) =
          Except.ok urls → urls ≠ [] → (none : Option (Nat × Nat)) = none →
        stageStatusOf failDemo StageId.rank = StageStatus.complete ∧
        failDemo.ps.results.urlsAnalyzed = some ((id urls).take 100).length) ∧
      (∀ urls, (Except.error [120] : Except (List Nat) (List (List Nat))) =
          Except.ok urls → urls ≠ [] → (none : Option (Nat × Nat)) = none →
        ((∃ e, (Except.ok 0 : Except (List Nat) Nat) = Except.error e) ∨
          (∃ e, (Except.ok 0 : Except (List Nat) Nat) = Except.error e)) →
        stageStatusOf failDemo StageId.competitor = StageStatus.error ∧
        stageStatusOf failDemo StageId.technical = StageStatus.error ∧
        stageStatusOf failDemo StageId.content = StageStatus.error ∧
        stageStatusOf failDemo StageId.actionplan = StageStatus.pending ∧
        stageStatusOf failDemo StageId.summary = StageStatus.pending) ∧
      (∀ urls (sw se : Nat),
        (Except.error [120] : Except (List Nat) (List (List Nat))) =
          Except.ok urls → urls ≠ [] →
        ((none : Option (Nat × Nat)) = some (sw, se) ∨
          ((none : Option (Nat × Nat)) = none ∧
            (Except.ok 0 : Except (List Nat) Nat) = Except.ok sw ∧
            (Except.ok 0 : Except (List Nat) Nat) = Except.ok se)) →
        failDemo.ps.results.sitewideAnalysis = some sw ∧
        failDemo.ps.results.seoAnalysis = some se ∧
        stageStatusOf failDemo StageId.competitor = StageStatus.complete ∧
        stageStatusOf failDemo StageId.technical = StageStatus.complete ∧
        stageStatusOf failDemo StageId.content = StageStatus.complete) ∧
      (∀ urls (sw se : Nat) e,
        (Except.error [120] : Except (List Nat) (List (List Nat))) =
          Except.ok urls → urls ≠ [] →
        ((none : Option (Nat × Nat)) = some (sw, se) ∨
          ((none : Option (Nat × Nat)) = none ∧
            (Except.ok 0 : Except (List Nat) Nat) = Except.ok sw ∧
            (Except.ok 0 : Except (List Nat) Nat) = Except.ok se)) →
        (fun _ _ => (Except.ok 0 : Except (List Nat) Nat)) sw se = Except.error e →
        stageStatusOf failDemo StageId.actionplan = StageStatus.error ∧
        stageStatusOf failDemo StageId.summary = StageStatus.pending) ∧
      (∀ urls (sw se ap : Nat),
        (Except.error [120] : Except (List Nat) (List (List Nat))) =
          Except.ok urls → urls ≠ [] →
        ((none : Option (Nat × Nat)) = some (sw, se) ∨
          ((none : Option (Nat × Nat)) = none ∧
            (Except.ok 0 : Except (List Nat) Nat) = Except.ok sw ∧
            (Except.ok 0 : Except (List Nat) Nat) = Except.ok se)) →
        (fun _ _ => (Except.ok 0 : Except (List Nat) Nat)) sw se = Except.ok ap →
        failDemo.ps.results.actionPlan = some ap ∧
        stageStatusOf failDemo StageId.actionplan = StageStatus.complete ∧
        (∀ e, (fun _ _ => (Except.ok 0 : Except (List Nat) Nat)) sw se = Except.error e →
          stageStatusOf failDemo StageId.summary = StageStatus.error)) :=
  run_failure_semantics (Except.error [120]) none id (Except.ok 0)
    (Except.ok 0) (fun _ _ => Except.ok 0) (fun _ _ => Except.ok 0) 0 [120]
    failDemo rfl (by decide)
